import Mathlib

/-!
Verification of the configuration / credential lifecycle manager of the
VoipNow provisioning MCP server (`provisioning/src/main.py` and
`provisioning/src/utils/token.py`).

Strings are embedded as `List Char`; Python `str.split(":")`,
`str.strip()`, `str.startswith(...)`, `str(int)` and `int(str)` are
modelled by executable Lean functions below, faithful to CPython
semantics on the inputs that occur in this code base.
-/

namespace VoipNow

/-- Python `str.split(":")` on a character list.
`splitOnColon [] = [[]]`, and each `':'` separates (possibly empty) fields,
exactly like CPython `"".split(":") == [""]`, `":".split(":") == ["", ""]`. -/
def splitOnColon : List Char → List (List Char)
  | [] => [[]]
  | c :: rest =>
    if c = ':' then [] :: splitOnColon rest
    else
      match splitOnColon rest with
      | [] => [[c]]
      | h :: t => (c :: h) :: t

/-- Python `str.startswith(p)`: `chStartsWith p s` is true when `p` is an
initial segment of `s`. -/
def chStartsWith : List Char → List Char → Bool
  | [], _ => true
  | _ :: _, [] => false
  | p :: ps, c :: cs => if p = c then chStartsWith ps cs else false

/-- The whitespace characters stripped by Python `str.strip()` (the ASCII
ones; the code base never produces non-ASCII whitespace). -/
def isPyWs (c : Char) : Bool :=
  c = ' ' || c = '\t' || c = '\n' || c = '\r' || c = '\x0b' || c = '\x0c'

/-- Python `str.strip()`. -/
def pythonStrip (s : List Char) : List Char :=
  ((s.dropWhile isPyWs).reverse.dropWhile isPyWs).reverse

/-- The decimal digit character for `d < 10`, as produced by Python
`str(int)`. -/
def digitChar (d : Nat) : Char := Char.ofNat (48 + d)

/-- Little-endian digit list of a positive natural (empty for `0`),
with explicit fuel so that the definition reduces by computation; `n`
itself is always enough fuel since `n / 10 < n` for `n > 0`. -/
def natDigitsRevAux : Nat → Nat → List Char
  | 0, _ => []
  | fuel + 1, n =>
    if n = 0 then [] else digitChar (n % 10) :: natDigitsRevAux fuel (n / 10)

/-- Little-endian digit list of a positive natural (empty for `0`). -/
def natDigitsRev (n : Nat) : List Char := natDigitsRevAux n n

/-- Python `str(n)` for a natural number `n`. -/
def natToChars (n : Nat) : List Char :=
  if n = 0 then ['0'] else (natDigitsRev n).reverse

/-- Python `str(i)` for an integer `i`. -/
def intToChars (i : Int) : List Char :=
  if i < 0 then '-' :: natToChars i.natAbs else natToChars i.natAbs

/-- Numeric value of a decimal digit character, `none` for non-digits. -/
def digitVal (c : Char) : Option Nat :=
  if 48 ≤ c.toNat ∧ c.toNat ≤ 57 then some (c.toNat - 48) else none

/-- Accumulating decimal evaluation of a digit string; `none` on any
non-digit character. -/
def digitsValAux : List Char → Nat → Option Nat
  | [], acc => some acc
  | c :: cs, acc =>
    match digitVal c with
    | none => none
    | some d => digitsValAux cs (acc * 10 + d)

/-- Python `int(s)` restricted to the shapes this code base produces:
an optional sign followed by at least one decimal digit
(`int()` raises `ValueError`, here `none`, otherwise). -/
def charsToInt : List Char → Option Int
  | [] => none
  | c :: cs =>
    if c = '-' then
      match cs with
      | [] => none
      | _ :: _ =>
        match digitsValAux cs 0 with
        | none => none
        | some n => some (-(n : Int))
    else if c = '+' then
      match cs with
      | [] => none
      | _ :: _ =>
        match digitsValAux cs 0 with
        | none => none
        | some n => some ((n : Int))
    else
      match digitsValAux (c :: cs) 0 with
      | none => none
      | some n => some ((n : Int))

/-- True when the string does not end in a whitespace character (so
`str.strip()` does not shorten it on the right).  The secrets issued in
practice are base64-ish token strings, for which this holds. -/
def lastNotWs (s : List Char) : Bool :=
  match s.getLast? with
  | none => true
  | some c => ¬ isPyWs c

/-! ## The credential store (`utils/token.py`) -/

/-- An error raised by the token-file helpers (`ValueError` in the
source; messages are irrelevant to the claims). -/
inductive TokenErr
  | valueError
deriving DecidableEq, Repr

/-- Model of `_safe_read_token_file` (token.py:40-69), given the bytes of the
token file: strips the content, rejects an empty result and content
with fewer than three colon-separated parts, and otherwise returns the
stripped content (I/O failures are outside this pure model; they also
surface as `ValueError`). -/
def safe_read_token_data (content : List Char) : Except TokenErr (List Char) :=
  let t := pythonStrip content
  if t = [] then .error .valueError
  else if (splitOnColon t).length < 3 then .error .valueError
  else .ok t

/-- The on-disk credential record `issuedAt:expiresAt:secret`
(spec §3 "Credential"): written by `generate_token` as
`f"{now}:{now + expires_in}:{access_token}"` (token.py:108-111). -/
structure Credential where
  issuedAt : Int
  expiresAt : Int
  secret : List Char
deriving DecidableEq, Repr

/-- The serialization `generate_token` writes to the token file
(token.py:109-111). -/
def saveCredential (c : Credential) : List Char :=
  intToChars c.issuedAt ++ (':' :: (intToChars c.expiresAt ++ (':' :: c.secret)))

/-- Decoding a credential record from the token file, combining the
source's read and field extractions: `_safe_read_token_file` validates
the shape, `parts[0]` / `parts[1]` are parsed with `int(...)`
(token.py:154, 167) and the secret is `token_data.split(":")[-1]`
(main.py:202). -/
def loadCredential (content : List Char) : Option Credential :=
  match safe_read_token_data content with
  | .error _ => none
  | .ok t =>
    let parts := splitOnColon t
    match charsToInt (parts.getD 0 []), charsToInt (parts.getD 1 []) with
    | some issued, some exp => some ⟨issued, exp, parts.getLastD []⟩
    | _, _ => none

/-- Model of `check_token` (token.py:147-157) with the expiry horizon exposed as
a parameter `h`: reads the token file, parses `parts[1]` and returns
`now >= expiration - h`; parse failures surface as `ValueError`. -/
def check_token_h (now h : Int) (content : List Char) : Except TokenErr Bool :=
  match safe_read_token_data content with
  | .error e => .error e
  | .ok t =>
    match charsToInt ((splitOnColon t).getD 1 []) with
    | none => .error .valueError
    | some exp => .ok (decide (now ≥ exp - h))

/-- Model of `check_token` as in the source, where the horizon is the literal
`300` seconds (token.py:155). -/
def check_token (now : Int) (content : List Char) : Except TokenErr Bool :=
  check_token_h now 300 content

/-- The value published into `voipnow_config["voipnowToken"]` from the
token-file bytes: `_safe_read_token_file` then
`token_data.split(":")[-1]` (main.py:199-202); `none` when the read
raises. -/
def published_token (content : List Char) : Option (List Char) :=
  match safe_read_token_data content with
  | .error _ => none
  | .ok t => some ((splitOnColon t).getLastD [])

/-- The prefix `"http://"` as a character list. -/
def httpPre : List Char := ['h', 't', 't', 'p', ':', '/', '/']

/-- The prefix `"https://"` as a character list. -/
def httpsPre : List Char := ['h', 't', 't', 'p', 's', ':', '/', '/']

/-- The host `generate_token` uses for the OAuth request
(token.py:76-78): any host not starting with `https://` gets
`https://` prepended — including hosts that already start with
`http://`. -/
def generate_token_host (host : List Char) : List Char :=
  if chStartsWith httpsPre host then host else httpsPre ++ host

/-- The path `"/oauth/token.php"` as a character list. -/
def oauthPath : List Char :=
  ['/', 'o', 'a', 'u', 't', 'h', '/', 't', 'o', 'k', 'e', 'n', '.', 'p', 'h', 'p']

/-- The URL the credential-issue POST is sent to:
`f"{voipnow_host}/oauth/token.php"` (token.py:97). -/
def generate_token_request_url (host : List Char) : List Char :=
  generate_token_host host ++ oauthPath

/-- The URL-scheme validation of `load_config` (main.py:126): the host
must start with `https://` or `http://`. -/
def urlOk (host : List Char) : Bool :=
  chStartsWith httpsPre host || chStartsWith httpPre host

/-! ## Configuration documents and validation (`main.py`) -/

/-- A raw configuration document: the JSON object read from the config
file, as an association of string keys to string values (the values the
claims depend on are all strings; `insecure`'s boolean-ness is
irrelevant here). -/
def RawConfig := List (String × List Char)

instance : DecidableEq RawConfig := by unfold RawConfig; infer_instance

/-- The list `required_keys` (main.py:34). -/
def required_keys : List String :=
  ["appId", "appSecret", "voipnowHost", "voipnowTokenFile"]

/-- The list `allowed_keys` (main.py:35). -/
def allowed_keys : List String :=
  required_keys ++ ["authTokenMCP", "logLevel", "insecure"]

/-- Python `key in new_config_mcp`. -/
def hasKey (cfg : RawConfig) (k : String) : Bool :=
  (cfg.lookup k).isSome

/-- Python `new_config_mcp.get(key, "")`. -/
def getVal (cfg : RawConfig) (k : String) : List Char :=
  (cfg.lookup k).getD []

/-- The list `missing_keys` (main.py:100). -/
def missingKeys (cfg : RawConfig) : List String :=
  required_keys.filter (fun k => ¬ hasKey cfg k)

/-- The list `extra_keys` (main.py:111). -/
def extraKeys (cfg : RawConfig) : List String :=
  (cfg.map Prod.fst).filter (fun k => ¬ allowed_keys.contains k)

/-- First-load acceptance of a configuration document by `load_config`
(main.py:100-158 plus the empty-token-path check at main.py:208-211):
with `self.config_data` empty, each failed check raises
`ConfigurationError`, which aborts startup.  The checks, in source
order: missing required keys (100-105), extra keys (111-116), URL
scheme (126-129), `authTokenMCP` when the server runs with `--secure`
(132-138), `voipnowTokenFile` presence (145-150, subsumed by the
required-key check) and a non-empty (truthy) `voipnowTokenFile` value
(165-166, 208-211). -/
def validate_first_load (secure : Bool) (cfg : RawConfig) : Bool :=
  if missingKeys cfg ≠ [] then false
  else if extraKeys cfg ≠ [] then false
  else if ¬ urlOk (getVal cfg "voipnowHost") then false
  else if secure && ¬ hasKey cfg "authTokenMCP" then false
  else if ¬ hasKey cfg "voipnowTokenFile" then false
  else if getVal cfg "voipnowTokenFile" = [] then false
  else true

/-- Acceptance as the specification states it (spec §8, first bullet):
required keys present, no keys outside the allowed set, and a valid URL
scheme.  Named after the spec's wording; compared against
`validate_first_load` in the C3 theorems. -/
def spec_accepts (cfg : RawConfig) : Bool :=
  required_keys.all (fun k => hasKey cfg k) &&
  (cfg.map Prod.fst).all (fun k => allowed_keys.contains k) &&
  urlOk (getVal cfg "voipnowHost")

/-! ## Fingerprint change detection and the token phase of a reload
(`check_config_change`, token.py:173-238; `load_config`,
main.py:163-207) -/

/-- The auth-relevant configuration triple hashed by
`check_config_change` (token.py:185-189). -/
structure AuthConfig where
  appId : List Char
  appSecret : List Char
  voipnowHost : List Char
deriving DecidableEq, Repr

/-- The fingerprint stored in the `.config_hash` file.  The source
stores `sha256(str(auth_config)).hexdigest()`; the hash is modelled by
the hashed triple itself, so fingerprint equality in the model
corresponds to digest equality in the source (sha256 collisions are
abstracted away). -/
def fingerprint (a : AuthConfig) : AuthConfig := a

/-- The slice of the filesystem the token phase touches: the
fingerprint (`.config_hash`) file and the token file, each `none` when
absent. -/
structure TokenFS where
  hashFile : Option AuthConfig
  tokenFile : Option (List Char)
deriving DecidableEq, Repr

/-- Result of `check_config_change`: the updated filesystem, the
returned boolean, and whether `os.remove` was invoked on the token
file. -/
structure ConfigChangeResult where
  fs : TokenFS
  changed : Bool
  removedTokenFile : Bool
deriving DecidableEq, Repr

/-- Model of `check_config_change` (token.py:173-238): compares the freshly
computed fingerprint with the stored one; on mismatch it rewrites the
hash file and deletes the token file (if present) so it gets
regenerated, returning `True`; with no stored hash it creates one and
returns `False`. -/
def check_config_change (auth : AuthConfig) (fs : TokenFS) : ConfigChangeResult :=
  match fs.hashFile with
  | none => ⟨{ fs with hashFile := some (fingerprint auth) }, false, false⟩
  | some stored =>
    if stored = fingerprint auth then ⟨fs, false, false⟩
    else
      ⟨{ hashFile := some (fingerprint auth), tokenFile := none }, true,
        fs.tokenFile.isSome⟩

/-- Result of the token phase of one reload. -/
structure TokenPhaseResult where
  fs : TokenFS
  configChanged : Bool
  removedTokenFile : Bool
  issueCount : Nat
deriving DecidableEq, Repr

/-- The token-handling phase of `load_config` (main.py:169-197) on one
reload, with a succeeding issuer: runs `check_config_change`, then
regenerates the token exactly when the token file is absent
(main.py:179), expired (`check_token`, main.py:185) or corrupted
(`ValueError`, main.py:189-193); `generate_token` writes `freshTok`.
`issueCount` counts the `generate_token` calls. -/
def load_config_token_phase (auth : AuthConfig) (now : Int)
    (freshTok : Credential) (fs : TokenFS) : TokenPhaseResult :=
  let r := check_config_change auth fs
  let needsRegen :=
    match r.fs.tokenFile with
    | none => true
    | some content =>
      match check_token now content with
      | .ok b => b
      | .error _ => true
  if needsRegen then
    ⟨{ r.fs with tokenFile := some (saveCredential freshTok) },
      r.changed, r.removedTokenFile, 1⟩
  else ⟨r.fs, r.changed, r.removedTokenFile, 0⟩

/-! ## The reload path of `load_config` (main.py:91-291) -/

/-- What the token phase of one `load_config` attempt does, as seen by
the surrounding exception handlers.  `requestFailure` covers
`requests.exceptions.SSLError/HTTPError/ConnectionError/Timeout/
RequestException` (main.py:225-265: on a reload each is logged and the
previous configuration kept); `ioFailure` covers `IOError/OSError`
(main.py:287-291); `tokenValueError msgHasToken` covers
`ValueError/KeyError/RuntimeError` (main.py:267), whose handler
retries only when the message contains "token". -/
inductive TokenOutcome
  | ok (token : List Char)
  | requestFailure
  | ioFailure
  | tokenValueError (msgHasToken : Bool)
deriving DecidableEq, Repr

/-- The environment of one `load_config` attempt: the configuration
read from disk (`none` = `IOError`/`json.JSONDecodeError`,
main.py:287), the token phase's outcome if reached, and whether the
`generate_token` call inside the retry handler (main.py:272) succeeds. -/
structure AttemptEnv where
  readCfg : Option RawConfig
  tokenOutcome : TokenOutcome
  regenOk : Bool

/-- Outcome of a `load_config` call on a reload (prior good
configuration present, so `self.config_data` is non-empty).
`deadlocked` means the call never returns: it is blocked forever on the
non-reentrant `threading.Lock` (see `load_config_locked`). -/
inductive ReloadOutcome
  | updated (cfg : RawConfig) (token : List Char)
  | keptOld
  | raisedConfigError
  | deadlocked
deriving DecidableEq

/-- A `load_config()` invocation made while the calling thread already
holds `self.lock`: `ConfigManager.lock` is a plain non-reentrant
`threading.Lock` (main.py:86), acquired for the whole body at
main.py:93, so such a nested invocation blocks forever at its own
`with self.lock:` before reading or doing anything — it never returns
and makes no further nested calls of its own. -/
def load_config_locked : ReloadOutcome × Nat := (.deadlocked, 0)

/-- One reload `load_config()` call (main.py:91-291) with
`self.config_data` non-empty, entered — as its real callers, the
watcher thread and the SIGHUP handler, do — without the lock held.
The call acquires the non-reentrant lock at main.py:93 and holds it
for the whole body.  Returns the outcome and the number of nested
`load_config` invocations made.

Per the source: a read failure or missing/extra keys or (with
`--secure`) a missing `authTokenMCP` skip the reload keeping the old
configuration; an invalid URL scheme (main.py:126-129) and an empty
`voipnowTokenFile` value (main.py:208-211) raise `ConfigurationError`,
which the handler at main.py:283-285 re-raises even on a reload; token
failures are logged and the old derived configuration kept, except
that a `ValueError/KeyError/RuntimeError` whose message contains
"token" triggers `generate_token` and, if that succeeds, a nested
`self.load_config()` at main.py:274 — still under the lock, so the
nested call is `load_config_locked`: it blocks forever, and with it
the outer call, whose result is therefore the deadlock. -/
def load_config_reload (secure : Bool) (e : AttemptEnv) : ReloadOutcome × Nat :=
  match e.readCfg with
  | none => (.keptOld, 0)
  | some cfg =>
    if missingKeys cfg ≠ [] then (.keptOld, 0)
    else if extraKeys cfg ≠ [] then (.keptOld, 0)
    else if ¬ urlOk (getVal cfg "voipnowHost") then (.raisedConfigError, 0)
    else if secure && ¬ hasKey cfg "authTokenMCP" then (.keptOld, 0)
    else if getVal cfg "voipnowTokenFile" = [] then (.raisedConfigError, 0)
    else
      match e.tokenOutcome with
      | .ok tok => (.updated cfg tok, 0)
      | .requestFailure => (.keptOld, 0)
      | .ioFailure => (.keptOld, 0)
      | .tokenValueError msgHasToken =>
        if msgHasToken then
          if e.regenOk then (load_config_locked.1, load_config_locked.2 + 1)
          else (.keptOld, 0)
        else (.keptOld, 0)

/-- An attempt environment is benign when any configuration it lets
`load_config` read has a valid URL scheme and a non-empty
`voipnowTokenFile` whenever its keys pass the reload key checks — i.e.
it never steers the reload into one of the two unconditional
`ConfigurationError` raises. -/
def benignEnv (e : AttemptEnv) : Prop :=
  ∀ cfg, e.readCfg = some cfg → missingKeys cfg = [] → extraKeys cfg = [] →
    urlOk (getVal cfg "voipnowHost") = true ∧ getVal cfg "voipnowTokenFile" ≠ []

/-- An attempt environment avoids the self-deadlock of the token-error
retry when it does not combine a token-mentioning
`ValueError/KeyError/RuntimeError` with a succeeding handler
`generate_token` — the combination that reaches the nested
`self.load_config()` at main.py:274. -/
def deadlockFree (e : AttemptEnv) : Prop :=
  ¬ (e.tokenOutcome = .tokenValueError true ∧ e.regenOk = true)

/-! ## The expiration scheduler (`TokenExpirationChecker`,
token.py:241-387) -/

/-- Scheduler state: `running` is `self._running`; `armed` records
whether a pending (not yet fired, not cancelled) `threading.Timer`
exists. -/
structure SchedState where
  running : Bool
  armed : Bool
deriving DecidableEq, Repr

/-- What the world does during one firing of `_check_token`
(token.py:303-387).  `noTokenFile`: `voipnowTokenFile` unset — the
method logs and returns without rescheduling (token.py:308-311).
`checkError`: `check_token` raises `ValueError` — reschedule at the
base interval (token.py:358-361).  `fresh`: token not expiring — fall
through to the expiration-read section, which reschedules whether the
read succeeds or raises (token.py:363-387).  `regenOk`: token expiring
and `generate_token` succeeds — likewise falls through and
reschedules.  `regenInvalidClient`: `generate_token` raises
`HTTPError` with status 401 and error `invalid_client` — the checker
calls `self.stop()` and returns (token.py:320-328).  `regenTransient`:
any other HTTP/connection/timeout/request/IO failure — reschedule at
`min(60, interval / 5)` (token.py:331-356). -/
inductive FireEnv
  | noTokenFile
  | checkError
  | fresh
  | regenOk
  | regenInvalidClient
  | regenTransient
deriving DecidableEq, Repr

/-- Model of `stop` (token.py:281-287): clears `_running` and cancels any
pending timer. -/
def sched_stop (_s : SchedState) : SchedState := ⟨false, false⟩

/-- Model of `_schedule_next_check` (token.py:289-301): arms a timer only while
`_running` is set. -/
def schedule_next (s : SchedState) : SchedState :=
  if s.running then { s with armed := true } else s

/-- One firing of `_check_token` (token.py:303-387): the firing timer
is consumed; if the checker is not running the method returns at once;
otherwise it acts per the environment (see `FireEnv`). -/
def fire_check (s : SchedState) (e : FireEnv) : SchedState :=
  let s0 : SchedState := { s with armed := false }
  if ¬ s0.running then s0
  else
    match e with
    | .noTokenFile => s0
    | .regenInvalidClient => sched_stop s0
    | _ => schedule_next s0

/-- Model of `start` (token.py:266-279): a no-op when already running, else sets
`_running` and arms the initial-delay timer. -/
def sched_start (s : SchedState) : SchedState :=
  if s.running then s else ⟨true, true⟩

/-- The scheduler events that can occur without an explicit `start`:
a timer firing (with its environment) or a `stop` call. -/
inductive SchedEv
  | fireEv (e : FireEnv)
  | stopEv
deriving DecidableEq, Repr

/-- Transition on a no-start event. -/
def sched_step (s : SchedState) : SchedEv → SchedState
  | .fireEv e => fire_check s e
  | .stopEv => sched_stop s

/-! ## The change watcher's debounce (`ConfigFileHandler.on_modified`,
main.py:348-371) -/

/-- Debounce state for one watched path: the time of the last accepted
event, if any (`self.last_reload_time` has no entry initially). -/
def DebounceState := Option ℚ

/-- One `on_modified` event at time `t` for the watched path
(main.py:358-371): dropped (no reload) when a previous event was
accepted less than 1 second ago — the drop leaves the recorded time
unchanged — otherwise the time is recorded and one reload triggered. -/
def debounce_step (s : DebounceState) (t : ℚ) : DebounceState × Bool :=
  match s with
  | none => (some t, true)
  | some t0 => if t - t0 < 1 then (some t0, false) else (some t, true)

/-- Number of reload calls a sequence of events produces, starting from
debounce state `s`. -/
def debounce_reloads (s : DebounceState) : List ℚ → Nat
  | [] => 0
  | t :: ts =>
    let r := debounce_step s t
    (if r.2 then 1 else 0) + debounce_reloads r.1 ts

/-! ## Concrete configurations used in counterexamples and witnesses -/

/-- A configuration document that passes every check. -/
def goodCfg : RawConfig :=
  [("appId", "a1".data), ("appSecret", "s1".data),
   ("voipnowHost", "https://pbx.example.com".data),
   ("voipnowTokenFile", "/tmp/tok".data)]

/-- A key-valid configuration document whose `voipnowHost` has an
invalid URL scheme. -/
def badUrlCfg : RawConfig :=
  [("appId", "a1".data), ("appSecret", "s1".data),
   ("voipnowHost", "ftp://pbx.example.com".data),
   ("voipnowTokenFile", "/tmp/tok".data)]

/-- A configuration document satisfying the three spec-stated
conditions whose `voipnowTokenFile` value is the empty string. -/
def emptyPathCfg : RawConfig :=
  [("appId", "a1".data), ("appSecret", "s1".data),
   ("voipnowHost", "https://pbx.example.com".data),
   ("voipnowTokenFile", "".data)]

/-- An environment whose reload reads `badUrlCfg`. -/
def envBadUrl : AttemptEnv := ⟨some badUrlCfg, .ok "tok".data, true⟩

/-- An environment whose reload reads a valid configuration but whose
token phase fails with a token-mentioning error while the retry
handler's `generate_token` succeeds — the situation that reaches the
nested `self.load_config()` at main.py:274. -/
def envTokenRetry : AttemptEnv := ⟨some goodCfg, .tokenValueError true, true⟩

/-- An environment whose reload reads a valid configuration and whose
token phase succeeds. -/
def envOkReload : AttemptEnv := ⟨some goodCfg, .ok "tok".data, true⟩

/-! ## Lemmas about colon splitting -/

theorem splitOnColon_ne_nil (s : List Char) : splitOnColon s ≠ [] := by
  cases s with
  | nil => simp [splitOnColon]
  | cons c rest =>
    rw [splitOnColon]
    split
    · simp
    · split <;> simp

theorem splitOnColon_of_not_mem {s : List Char} (h : ':' ∉ s) :
    splitOnColon s = [s] := by
  induction s with
  | nil => rfl
  | cons c rest ih =>
    rw [splitOnColon]
    rw [if_neg (by simp at h; exact fun hc => h.1 hc.symm)]
    rw [ih (by simp at h; exact h.2)]

theorem splitOnColon_append {a : List Char} (rest : List Char) (h : ':' ∉ a) :
    splitOnColon (a ++ ':' :: rest) = a :: splitOnColon rest := by
  induction a with
  | nil => simp [splitOnColon]
  | cons c t ih =>
    simp only [List.mem_cons, not_or] at h
    rw [List.cons_append, splitOnColon, if_neg (fun hc => h.1 hc.symm),
      ih h.2]

theorem splitOnColon_length_of_mem {s : List Char} (h : ':' ∈ s) :
    2 ≤ (splitOnColon s).length := by
  induction s with
  | nil => simp at h
  | cons c rest ih =>
    rw [splitOnColon]
    by_cases hc : c = ':'
    · rw [if_pos hc]
      have := splitOnColon_ne_nil rest
      cases hr : splitOnColon rest with
      | nil => exact absurd hr this
      | cons x t => simp
    · rw [if_neg hc]
      have hrest : ':' ∈ rest := by
        rcases List.mem_cons.mp h with h1 | h1
        · exact absurd h1.symm hc
        · exact h1
      cases hr : splitOnColon rest with
      | nil => exact absurd hr (splitOnColon_ne_nil rest)
      | cons x t =>
        have := ih hrest
        rw [hr] at this
        simpa using this

theorem getLast?_splitOnColon (s : List Char) :
    ∃ last, (splitOnColon s).getLast? = some last ∧ ':' ∉ last ∧
      (':' ∈ s → ∃ pre, s = pre ++ ':' :: last) ∧ (':' ∉ s → last = s) := by
  induction s with
  | nil => exact ⟨[], by simp [splitOnColon], by simp, by simp, by simp⟩
  | cons c rest ih =>
    obtain ⟨last, hlast, hnc, hmem, hnmem⟩ := ih
    by_cases hc : c = ':'
    · subst hc
      refine ⟨last, ?_, hnc, ?_, by simp⟩
      · rw [splitOnColon, if_pos rfl]
        cases hr : splitOnColon rest with
        | nil => exact absurd hr (splitOnColon_ne_nil rest)
        | cons x t => rw [hr] at hlast; rw [List.getLast?_cons_cons, hlast]
      · intro _
        by_cases hmr : ':' ∈ rest
        · obtain ⟨pre, hpre⟩ := hmem hmr
          exact ⟨':' :: pre, by rw [hpre]; rfl⟩
        · exact ⟨[], by rw [hnmem hmr]; rfl⟩
    · by_cases hmr : ':' ∈ rest
      · refine ⟨last, ?_, hnc, ?_, ?_⟩
        · rw [splitOnColon, if_neg hc]
          cases hr : splitOnColon rest with
          | nil => exact absurd hr (splitOnColon_ne_nil rest)
          | cons x t =>
            rw [hr] at hlast
            have h2 := splitOnColon_length_of_mem hmr
            rw [hr] at h2
            cases t with
            | nil => simp at h2
            | cons y u => rw [List.getLast?_cons_cons]; simpa using hlast
        · intro _
          obtain ⟨pre, hpre⟩ := hmem hmr
          exact ⟨c :: pre, by rw [hpre]; rfl⟩
        · intro hn
          exact absurd (List.mem_cons_of_mem c hmr) hn
      · refine ⟨c :: rest, ?_, ?_, ?_, fun _ => rfl⟩
        · rw [splitOnColon_of_not_mem (by
            simp only [List.mem_cons, not_or]
            exact ⟨fun hx => hc hx.symm, hmr⟩)]
          rfl
        · simp only [List.mem_cons, not_or]
          exact ⟨fun hx => hc hx.symm, hmr⟩
        · intro hm
          rcases List.mem_cons.mp hm with h1 | h1
          · exact absurd h1.symm hc
          · exact absurd h1 hmr

/-! ## Lemmas about decimal serialization and parsing -/

theorem digitChar_toNat {d : Nat} (h : d < 10) : (digitChar d).toNat = 48 + d := by
  interval_cases d <;> decide

theorem natDigitsRevAux_congr : ∀ f1 f2 n : Nat, n ≤ f1 → n ≤ f2 →
    natDigitsRevAux f1 n = natDigitsRevAux f2 n := by
  intro f1
  induction f1 with
  | zero =>
    intro f2 n h1 _
    have : n = 0 := by omega
    subst this
    cases f2 <;> rfl
  | succ m ih =>
    intro f2 n h1 h2
    cases f2 with
    | zero =>
      have : n = 0 := by omega
      subst this
      rfl
    | succ k =>
      rw [natDigitsRevAux, natDigitsRevAux]
      by_cases hn : n = 0
      · rw [if_pos hn, if_pos hn]
      · rw [if_neg hn, if_neg hn]
        have hd : n / 10 < n := Nat.div_lt_self (Nat.pos_of_ne_zero hn) (by omega)
        rw [ih k (n / 10) (by omega) (by omega)]

theorem natDigitsRev_eq (n : Nat) :
    natDigitsRev n =
      if n = 0 then [] else digitChar (n % 10) :: natDigitsRev (n / 10) := by
  cases n with
  | zero => rfl
  | succ m =>
    rw [natDigitsRev, natDigitsRevAux, if_neg (Nat.succ_ne_zero m),
      if_neg (Nat.succ_ne_zero m)]
    have hd : (m + 1) / 10 < m + 1 := Nat.div_lt_self (by omega) (by omega)
    rw [natDigitsRev, natDigitsRevAux_congr m ((m + 1) / 10) ((m + 1) / 10)
      (by omega) (le_refl _)]

theorem natDigitsRev_digits (n : Nat) :
    ∀ c ∈ natDigitsRev n, 48 ≤ c.toNat ∧ c.toNat ≤ 57 := by
  induction n using Nat.strong_induction_on with
  | _ n ih =>
    rw [natDigitsRev_eq]
    by_cases h : n = 0
    · simp [h]
    · rw [if_neg h]
      intro c hc
      rcases List.mem_cons.mp hc with h1 | h1
      · subst h1
        have hd : n % 10 < 10 := Nat.mod_lt _ (by omega)
        rw [digitChar_toNat hd]
        omega
      · exact ih (n / 10) (Nat.div_lt_self (Nat.pos_of_ne_zero h) (by omega)) c h1

theorem natToChars_digits (n : Nat) :
    ∀ c ∈ natToChars n, 48 ≤ c.toNat ∧ c.toNat ≤ 57 := by
  rw [natToChars]
  by_cases h : n = 0
  · rw [if_pos h]; intro c hc; simp at hc; subst hc; decide
  · rw [if_neg h]
    intro c hc
    exact natDigitsRev_digits n c (List.mem_reverse.mp hc)

theorem natToChars_ne_nil (n : Nat) : natToChars n ≠ [] := by
  rw [natToChars]
  by_cases h : n = 0
  · rw [if_pos h]; simp
  · rw [if_neg h, natDigitsRev_eq, if_neg h]
    simp

theorem toNat_bounds_ne {c d : Char} (h1 : 48 ≤ c.toNat) (h2 : c.toNat ≤ 57)
    (hd : d.toNat < 48 ∨ 57 < d.toNat) : c ≠ d := by
  intro h
  subst h
  omega

theorem digitVal_digitChar {d : Nat} (h : d < 10) :
    digitVal (digitChar d) = some d := by
  interval_cases d <;> decide

theorem digitsValAux_append (xs ys : List Char) (acc : Nat) :
    digitsValAux (xs ++ ys) acc =
      match digitsValAux xs acc with
      | none => none
      | some a => digitsValAux ys a := by
  induction xs generalizing acc with
  | nil => simp [digitsValAux]
  | cons c t ih =>
    rw [List.cons_append, digitsValAux, digitsValAux]
    cases digitVal c with
    | none => simp
    | some d => exact ih (acc * 10 + d)

theorem digitsValAux_natDigitsRev (n : Nat) :
    ∀ acc, digitsValAux (natDigitsRev n).reverse acc =
      some (acc * 10 ^ (natDigitsRev n).length + n) := by
  induction n using Nat.strong_induction_on with
  | _ n ih =>
    intro acc
    rw [natDigitsRev_eq]
    by_cases h : n = 0
    · simp [h, natDigitsRev, digitsValAux]
    · rw [if_neg h]
      rw [List.reverse_cons, digitsValAux_append]
      rw [ih (n / 10) (Nat.div_lt_self (Nat.pos_of_ne_zero h) (by omega)) acc]
      have hd : n % 10 < 10 := Nat.mod_lt _ (by omega)
      simp only [digitsValAux, digitVal_digitChar hd]
      have hsplit : n % 10 + 10 * (n / 10) = n := Nat.mod_add_div n 10
      have : (acc * 10 ^ (natDigitsRev (n / 10)).length + n / 10) * 10 + n % 10 =
          acc * 10 ^ ((natDigitsRev (n / 10)).length + 1) + n := by
        rw [pow_succ]
        ring_nf
        omega
      simp [this]

theorem digitsValAux_natToChars (n : Nat) :
    digitsValAux (natToChars n) 0 = some n := by
  rw [natToChars]
  by_cases h : n = 0
  · rw [if_pos h, h]; rfl
  · rw [if_neg h, digitsValAux_natDigitsRev n 0]
    simp

theorem charsToInt_intToChars (i : Int) : charsToInt (intToChars i) = some i := by
  obtain ⟨c, t, hn⟩ : ∃ c t, natToChars i.natAbs = c :: t := by
    cases hx : natToChars i.natAbs with
    | nil => exact absurd hx (natToChars_ne_nil _)
    | cons a b => exact ⟨a, b, rfl⟩
  rw [intToChars]
  by_cases h : i < 0
  · rw [if_pos h, hn]
    simp only [charsToInt, if_true]
    rw [← hn, digitsValAux_natToChars]
    have hi : -((i.natAbs : Nat) : Int) = i := by omega
    show some (-((i.natAbs : Nat) : Int)) = some i
    rw [hi]
  · rw [if_neg h, hn]
    have hc := natToChars_digits i.natAbs c (by rw [hn]; exact List.mem_cons_self c t)
    simp only [charsToInt]
    rw [if_neg (toNat_bounds_ne hc.1 hc.2 (by decide)),
      if_neg (toNat_bounds_ne hc.1 hc.2 (by decide))]
    rw [← hn, digitsValAux_natToChars]
    have hi : ((i.natAbs : Nat) : Int) = i := by omega
    show some (((i.natAbs : Nat) : Int)) = some i
    rw [hi]

/-! ## Lemmas about the shape of a saved credential -/

theorem colon_not_mem_natToChars (n : Nat) : ':' ∉ natToChars n := by
  intro hm
  have h2 := (natToChars_digits n ':' hm).2
  have : (':').toNat = 58 := by decide
  omega

theorem colon_not_mem_intToChars (i : Int) : ':' ∉ intToChars i := by
  intro hm
  rw [intToChars] at hm
  by_cases h : i < 0
  · rw [if_pos h] at hm
    rcases List.mem_cons.mp hm with h1 | h1
    · exact absurd h1 (by decide)
    · exact colon_not_mem_natToChars _ h1
  · rw [if_neg h] at hm
    exact colon_not_mem_natToChars _ hm

theorem isPyWs_eq_false_of_digit {c : Char} (h1 : 48 ≤ c.toNat)
    (h2 : c.toNat ≤ 57) : isPyWs c = false := by
  rw [isPyWs,
    decide_eq_false (toNat_bounds_ne h1 h2 (by decide) : c ≠ ' '),
    decide_eq_false (toNat_bounds_ne h1 h2 (by decide) : c ≠ '\t'),
    decide_eq_false (toNat_bounds_ne h1 h2 (by decide) : c ≠ '\n'),
    decide_eq_false (toNat_bounds_ne h1 h2 (by decide) : c ≠ '\r'),
    decide_eq_false (toNat_bounds_ne h1 h2 (by decide) : c ≠ '\x0b'),
    decide_eq_false (toNat_bounds_ne h1 h2 (by decide) : c ≠ '\x0c')]
  rfl

theorem intToChars_shape (i : Int) :
    ∃ h t, intToChars i = h :: t ∧ isPyWs h = false := by
  rw [intToChars]
  by_cases hneg : i < 0
  · exact ⟨'-', natToChars i.natAbs, by rw [if_pos hneg], by decide⟩
  · obtain ⟨c, t, hn⟩ : ∃ c t, natToChars i.natAbs = c :: t := by
      cases hx : natToChars i.natAbs with
      | nil => exact absurd hx (natToChars_ne_nil _)
      | cons a b => exact ⟨a, b, rfl⟩
    have hc := natToChars_digits i.natAbs c (by rw [hn]; exact List.mem_cons_self c t)
    exact ⟨c, t, by rw [if_neg hneg, hn], isPyWs_eq_false_of_digit hc.1 hc.2⟩

theorem dropWhile_isPyWs_eq_self {s : List Char}
    (h : ∀ c, s.head? = some c → isPyWs c = false) :
    List.dropWhile isPyWs s = s := by
  cases s with
  | nil => rfl
  | cons c t =>
    rw [List.dropWhile_cons, if_neg (by rw [h c rfl]; simp)]

theorem pythonStrip_eq_self {s : List Char}
    (h1 : List.dropWhile isPyWs s = s)
    (h2 : List.dropWhile isPyWs s.reverse = s.reverse) :
    pythonStrip s = s := by
  rw [pythonStrip, h1, h2, List.reverse_reverse]

theorem saveCredential_head? (c : Credential) :
    ∃ h, (saveCredential c).head? = some h ∧ isPyWs h = false := by
  obtain ⟨h, t, hsh, hwsh⟩ := intToChars_shape c.issuedAt
  refine ⟨h, ?_, hwsh⟩
  rw [saveCredential, hsh, List.cons_append]
  rfl

theorem saveCredential_reverse (c : Credential) :
    (saveCredential c).reverse =
      c.secret.reverse ++ ':' ::
        ((intToChars c.expiresAt).reverse ++ ':' :: (intToChars c.issuedAt).reverse) := by
  rw [saveCredential]
  simp [List.reverse_append, List.append_assoc]

theorem saveCredential_reverse_head? (c : Credential) (hws : lastNotWs c.secret = true) :
    ∀ x, (saveCredential c).reverse.head? = some x → isPyWs x = false := by
  intro x hx
  rw [saveCredential_reverse] at hx
  cases hsec : c.secret.reverse with
  | nil =>
    rw [hsec, List.nil_append, List.head?_cons] at hx
    injection hx with hh
    subst hh
    decide
  | cons b u =>
    rw [hsec, List.cons_append, List.head?_cons] at hx
    injection hx with hh
    subst hh
    have hlast : c.secret.getLast? = some b := by
      rw [← List.head?_reverse, hsec, List.head?_cons]
    rw [lastNotWs, hlast] at hws
    simpa using hws

theorem pythonStrip_saveCredential (c : Credential) (hws : lastNotWs c.secret = true) :
    pythonStrip (saveCredential c) = saveCredential c := by
  obtain ⟨h1, e1, w1⟩ := saveCredential_head? c
  refine pythonStrip_eq_self
    (dropWhile_isPyWs_eq_self fun x hx => ?_)
    (dropWhile_isPyWs_eq_self (saveCredential_reverse_head? c hws))
  rw [e1] at hx
  injection hx with hh
  subst hh
  exact w1

theorem saveCredential_ne_nil (c : Credential) : saveCredential c ≠ [] := by
  obtain ⟨h, e, _⟩ := saveCredential_head? c
  intro he
  rw [he] at e
  simp at e

theorem splitOnColon_saveCredential (c : Credential) :
    splitOnColon (saveCredential c) =
      intToChars c.issuedAt :: intToChars c.expiresAt :: splitOnColon c.secret := by
  rw [saveCredential]
  rw [splitOnColon_append _ (colon_not_mem_intToChars _)]
  rw [splitOnColon_append _ (colon_not_mem_intToChars _)]

theorem safe_read_saveCredential (c : Credential) (hws : lastNotWs c.secret = true) :
    safe_read_token_data (saveCredential c) = .ok (saveCredential c) := by
  rw [safe_read_token_data]
  simp only [pythonStrip_saveCredential c hws]
  rw [if_neg (saveCredential_ne_nil c)]
  rw [if_neg (by
    rw [splitOnColon_saveCredential]
    have h1 := List.length_pos.mpr (splitOnColon_ne_nil c.secret)
    simp only [List.length_cons]
    omega)]

/-! ## Lemmas about validation, URL prefixes, the scheduler, the
debounce and the reload recursion -/

theorem required_all_iff (cfg : RawConfig) :
    required_keys.all (fun k => hasKey cfg k) = true ↔ missingKeys cfg = [] := by
  rw [missingKeys]
  simp [List.filter_eq_nil_iff, List.all_eq_true]

theorem extra_all_iff (cfg : RawConfig) :
    (cfg.map Prod.fst).all (fun k => allowed_keys.contains k) = true ↔
      extraKeys cfg = [] := by
  rw [extraKeys]
  simp [List.filter_eq_nil_iff, List.all_eq_true]

theorem chStartsWith_append_self (p s : List Char) :
    chStartsWith p (p ++ s) = true := by
  induction p with
  | nil => rfl
  | cons c t ih => simp [chStartsWith, ih]

theorem https_not_pre_of_http (rest : List Char) :
    chStartsWith httpsPre (httpPre ++ rest) = false := rfl

theorem fire_invalid_client (s : SchedState) :
    fire_check s .regenInvalidClient = ⟨false, false⟩ := by
  cases s with
  | mk r a => cases r <;> simp [fire_check, sched_stop]

theorem sched_stopped_invariant (evs : List SchedEv) :
    ∀ s : SchedState, s.running = false → s.armed = false →
      (evs.foldl sched_step s).running = false ∧
        (evs.foldl sched_step s).armed = false := by
  induction evs with
  | nil => exact fun s hr ha => ⟨hr, ha⟩
  | cons e t ih =>
    intro s hr ha
    rw [List.foldl_cons]
    refine ih _ ?_ ?_
    · cases e with
      | fireEv env =>
        simp only [sched_step, fire_check]
        rw [if_pos (by simp [hr])]
        exact hr
      | stopEv => rfl
    · cases e with
      | fireEv env =>
        simp only [sched_step, fire_check]
        rw [if_pos (by simp [hr])]
      | stopEv => rfl

theorem debounce_within_window (t : ℚ) (rest : List ℚ)
    (h : ∀ u ∈ rest, u - t < 1) :
    debounce_reloads (some t) rest = 0 := by
  induction rest with
  | nil => rfl
  | cons u us ih =>
    rw [debounce_reloads]
    simp only [debounce_step, if_pos (h u (List.mem_cons_self u us))]
    simpa using ih fun v hv => h v (List.mem_cons_of_mem u hv)

theorem reload_count_spec (secure : Bool) (e : AttemptEnv) :
    load_config_reload secure e = (.deadlocked, 1) ∨
      (load_config_reload secure e).2 = 0 := by
  rw [load_config_reload]
  cases hr : e.readCfg with
  | none => right; rfl
  | some cfg =>
    dsimp only
    by_cases h1 : missingKeys cfg ≠ []
    · rw [if_pos h1]; right; rfl
    · rw [if_neg h1]
      by_cases h2 : extraKeys cfg ≠ []
      · rw [if_pos h2]; right; rfl
      · rw [if_neg h2]
        by_cases h3 : ¬ urlOk (getVal cfg "voipnowHost") = true
        · rw [if_pos h3]; right; rfl
        · rw [if_neg h3]
          by_cases h4 : (secure && ¬ hasKey cfg "authTokenMCP") = true
          · rw [if_pos h4]; right; rfl
          · rw [if_neg h4]
            by_cases h5 : getVal cfg "voipnowTokenFile" = []
            · rw [if_pos h5]; right; rfl
            · rw [if_neg h5]
              cases hto : e.tokenOutcome with
              | ok tok => right; rfl
              | requestFailure => right; rfl
              | ioFailure => right; rfl
              | tokenValueError m =>
                cases m with
                | false => right; rfl
                | true =>
                  by_cases hreg : e.regenOk = true
                  · left
                    simp [hreg, load_config_locked]
                  · right
                    simp [hreg]

/-! ## Claim C2 -/

/-- C2: when a scheduled check's credential reissue is rejected with
`invalid_client`, the expiration checker transitions to stopped
(`_running` false, pending timer cancelled), and no sequence of
further timer firings or `stop` calls — that is, anything short of an
explicit `start` — ever arms a timer again. -/
theorem C2_invalid_client_stops_scheduler (s : SchedState) (evs : List SchedEv) :
    (fire_check s .regenInvalidClient).running = false ∧
    (fire_check s .regenInvalidClient).armed = false ∧
    (evs.foldl sched_step (fire_check s .regenInvalidClient)).armed = false := by
  rw [fire_invalid_client]
  exact ⟨rfl, rfl, (sched_stopped_invariant evs ⟨false, false⟩ rfl rfl).2⟩

/-! ## Claim C5 -/

/-- C5: for a well-formed stored credential and any horizon `h`, the
expiry check (`check_token`, with the source's horizon `300` exposed as
the parameter `h` of `check_token_h`) returns true exactly when
`now ≥ expiresAt - h`; in particular at exact equality it returns
true, since `≥` is reflexive. -/
theorem C5_expiry_check_iff (c : Credential) (now h : Int)
    (hws : lastNotWs c.secret = true) :
    check_token_h now h (saveCredential c) = .ok true ↔ now ≥ c.expiresAt - h := by
  simp only [check_token_h, safe_read_saveCredential c hws,
    splitOnColon_saveCredential]
  rw [show (1 : Nat) = 0 + 1 from rfl, List.getD_cons_succ, List.getD_cons_zero,
    charsToInt_intToChars]
  simp

/-- Witness for C5, exercising the boundary case `now = expiresAt - h`
with the source's horizon of 300 seconds: `700 = 1000 - 300`, and the
check reports the credential as expiring. -/
theorem C5_witness :
    check_token_h 700 300 (saveCredential ⟨0, 1000, ['s']⟩) = .ok true :=
  (C5_expiry_check_iff ⟨0, 1000, ['s']⟩ 700 300 (by decide)).mpr (by decide)

/-! ## Claim C7 -/

/-- C7: saving a well-formed credential (secret free of colons and not
ending in whitespace) and loading it back through the credential store
recovers the same record field for field. -/
theorem C7_roundtrip (c : Credential) (hcolon : ':' ∉ c.secret)
    (hws : lastNotWs c.secret = true) :
    loadCredential (saveCredential c) = some c := by
  simp only [loadCredential, safe_read_saveCredential c hws,
    splitOnColon_saveCredential, splitOnColon_of_not_mem hcolon]
  rw [show (1 : Nat) = 0 + 1 from rfl]
  simp only [List.getD_cons_zero, List.getD_cons_succ, charsToInt_intToChars]
  simp [List.getLastD_eq_getLast?]

/-- Witness for C7 at a concrete credential. -/
theorem C7_witness :
    loadCredential (saveCredential ⟨1700000000, 1700003600, "secret".data⟩) =
      some ⟨1700000000, 1700003600, "secret".data⟩ :=
  C7_roundtrip ⟨1700000000, 1700003600, "secret".data⟩ (by decide) (by decide)

/-! ## Claim C8 -/

/-- C8: a burst of `N ≥ 1` modification events for the watched path in
which every event after the first falls within the 1-second debounce
window of the last accepted event (which remains the first event, as
dropped events do not update the recorded time) produces exactly one
reload call. -/
theorem C8_debounce_burst (t : ℚ) (rest : List ℚ)
    (h : ∀ u ∈ rest, u - t < 1) :
    debounce_reloads none (t :: rest) = 1 := by
  rw [debounce_reloads]
  simp only [debounce_step]
  rw [debounce_within_window t rest h]
  simp

/-- Witness for C8: three simultaneous events produce one reload. -/
theorem C8_witness : debounce_reloads none [0, 0, 0] = 1 :=
  C8_debounce_burst 0 [0, 0] (by simp)

/-! ## Claim C9 -/

/-- C9: for every host accepted by validation via its `http://` scheme,
`generate_token` prepends `https://` (because the host does not start
with `https://`), so the credential-issue request URL begins with the
malformed prefix `https://http://` rather than using the configured
`http` URL. -/
theorem C9_http_host_double_scheme (rest : List Char) :
    urlOk (httpPre ++ rest) = true ∧
    generate_token_host (httpPre ++ rest) = httpsPre ++ (httpPre ++ rest) ∧
    chStartsWith (httpsPre ++ httpPre)
      (generate_token_request_url (httpPre ++ rest)) = true := by
  have hfalse := https_not_pre_of_http rest
  refine ⟨?_, ?_, ?_⟩
  · rw [urlOk, hfalse, chStartsWith_append_self]
    rfl
  · rw [generate_token_host, hfalse]
    simp
  · rw [generate_token_request_url, generate_token_host, hfalse]
    simp only [Bool.false_eq_true, if_false]
    have hassoc : httpsPre ++ (httpPre ++ rest) ++ oauthPath =
        (httpsPre ++ httpPre) ++ (rest ++ oauthPath) := by
      simp [List.append_assoc]
    rw [hassoc, chStartsWith_append_self]

/-! ## Claim C10 -/

/-- C10: when the stored secret itself contains a colon, the value
published into the runtime configuration is only the substring of the
secret after its last colon (a colon-free proper suffix, hence not the
full secret), even though the load path accepted the file
(`published_token` returned `some`). -/
theorem C10_published_truncates_secret (c : Credential)
    (hws : lastNotWs c.secret = true) (hc : ':' ∈ c.secret) :
    ∃ suffix pre, published_token (saveCredential c) = some suffix ∧
      c.secret = pre ++ ':' :: suffix ∧ ':' ∉ suffix ∧ suffix ≠ c.secret := by
  obtain ⟨last, hlast, hnc, hmem, -⟩ := getLast?_splitOnColon c.secret
  obtain ⟨pre, hpre⟩ := hmem hc
  refine ⟨last, pre, ?_, hpre, hnc, ?_⟩
  · simp only [published_token, safe_read_saveCredential c hws,
      splitOnColon_saveCredential]
    cases hsp : splitOnColon c.secret with
    | nil => exact absurd hsp (splitOnColon_ne_nil _)
    | cons x tl =>
      rw [hsp] at hlast
      simp [List.getLastD_eq_getLast?, hlast]
  · intro he
    have hl : c.secret.length = pre.length + 1 + last.length := by
      rw [hpre]
      simp [List.length_append]
      omega
    rw [he] at hl
    omega

/-- Witness for C10 at the secret `"a:b"`: the published token is
`"b"`. -/
theorem C10_witness :
    ∃ suffix pre,
      published_token (saveCredential ⟨10, 20, "a:b".data⟩) = some suffix ∧
      ("a:b".data : List Char) = pre ++ ':' :: suffix ∧ ':' ∉ suffix ∧
      suffix ≠ "a:b".data :=
  C10_published_truncates_secret ⟨10, 20, "a:b".data⟩ (by decide) (by decide)

/-! ## Claim C1 -/

/-- C1 is refuted by this counterexample: on a reload with a prior good
configuration, a configuration file whose keys are all valid but whose
`voipnowHost` is `ftp://pbx.example.com` makes `load_config` raise
`ConfigurationError` to its caller (main.py:126-129 raises
unconditionally and main.py:283-285 re-raises), instead of logging and
keeping the previous configuration. -/
theorem C1_counterexample :
    (load_config_reload false envBadUrl).1 = .raisedConfigError := by
  decide

/-- C1 (amended): on a reload with a prior good configuration and an
environment that avoids the two failure modes carved out below, the
`load_config` call returns normally without propagating any exception:
it either keeps the previous derived configuration (errors are logged
and skipped) or publishes the freshly read one.  The carve-outs, each
exhibited by its own theorem: (a) a readable, key-valid document with
an invalid `voipnowHost` URL scheme or an empty `voipnowTokenFile`
value makes `load_config` raise `ConfigurationError` even on a reload
(`C1_counterexample`); (b) a token-mentioning
`ValueError/KeyError/RuntimeError` whose handler regeneration succeeds
reaches the nested `self.load_config()` at main.py:274, which
deadlocks forever on the non-reentrant lock held since main.py:93 — the
call never returns and the process hangs rather than continuing (the
C6 theorems). -/
theorem C1_reload_no_exception (secure : Bool) (e : AttemptEnv)
    (hben : benignEnv e) (hdl : deadlockFree e) :
    (load_config_reload secure e).1 = .keptOld ∨
    ∃ cfg tok, (load_config_reload secure e).1 = .updated cfg tok := by
  rw [load_config_reload]
  cases hr : e.readCfg with
  | none => left; rfl
  | some cfg =>
    dsimp only
    by_cases h1 : missingKeys cfg ≠ []
    · rw [if_pos h1]; left; rfl
    · rw [if_neg h1]
      by_cases h2 : extraKeys cfg ≠ []
      · rw [if_pos h2]; left; rfl
      · rw [if_neg h2]
        obtain ⟨hurl, hpath⟩ := hben cfg hr (not_ne_iff.mp h1) (not_ne_iff.mp h2)
        rw [if_neg (by simp [hurl])]
        by_cases h4 : (secure && ¬ hasKey cfg "authTokenMCP") = true
        · rw [if_pos h4]; left; rfl
        · rw [if_neg h4, if_neg hpath]
          cases hto : e.tokenOutcome with
          | ok tok => right; exact ⟨cfg, tok, rfl⟩
          | requestFailure => left; rfl
          | ioFailure => left; rfl
          | tokenValueError m =>
            cases m with
            | false => left; rfl
            | true =>
              by_cases hreg : e.regenOk = true
              · exact absurd ⟨hto, hreg⟩ hdl
              · left
                simp [hreg]

/-- Witness for C1 (amended) in a benign, deadlock-free environment. -/
theorem C1_witness :
    (load_config_reload false envOkReload).1 = .keptOld ∨
    ∃ cfg tok, (load_config_reload false envOkReload).1 = .updated cfg tok :=
  C1_reload_no_exception false envOkReload
    (fun cfg hcfg _ _ => by
      injection hcfg with hh
      subst hh
      exact ⟨by decide, by decide⟩)
    (by simp [deadlockFree, envOkReload])

/-! ## Claim C3 -/

/-- C3 is refuted by this counterexample: the document
`{appId, appSecret, voipnowHost: "https://…", voipnowTokenFile: ""}`
has all required keys, no extra keys and a valid URL scheme (so
`spec_accepts` holds), yet the first load rejects it: the empty
`voipnowTokenFile` value is falsy, so `load_config` raises
`ConfigurationError` at main.py:208-211. -/
theorem C3_counterexample :
    ¬ (validate_first_load false emptyPathCfg = true ↔
        spec_accepts emptyPathCfg = true) := by
  decide

/-- C3 (amended): first-load validation accepts a document iff the
required keys are present, no keys outside the allowed set exist, the
`voipnowHost` value starts with `http://` or `https://`, the
`voipnowTokenFile` value is non-empty, and — when the server runs with
`--secure` — `authTokenMCP` is present. -/
theorem hasKey_tokenFile_of_missing_nil {cfg : RawConfig}
    (h : missingKeys cfg = []) : hasKey cfg "voipnowTokenFile" = true := by
  have hall := (required_all_iff cfg).mpr h
  rw [List.all_eq_true] at hall
  exact hall "voipnowTokenFile" (by simp [required_keys])

theorem spec_accepts_iff (cfg : RawConfig) :
    spec_accepts cfg = true ↔
      (missingKeys cfg = [] ∧ extraKeys cfg = [] ∧
        urlOk (getVal cfg "voipnowHost") = true) := by
  rw [spec_accepts]
  simp only [Bool.and_eq_true, required_all_iff, extra_all_iff]
  tauto

theorem C3_first_load_accepts_iff (secure : Bool) (cfg : RawConfig) :
    validate_first_load secure cfg = true ↔
      (spec_accepts cfg = true ∧ getVal cfg "voipnowTokenFile" ≠ [] ∧
        (secure = true → hasKey cfg "authTokenMCP" = true)) := by
  rw [spec_accepts_iff]
  by_cases h1 : missingKeys cfg = []
  case neg => simp [validate_first_load, h1]
  case pos =>
    have h7 := hasKey_tokenFile_of_missing_nil h1
    by_cases h2 : extraKeys cfg = [] <;>
    by_cases h3 : urlOk (getVal cfg "voipnowHost") = true <;>
    by_cases h4 : hasKey cfg "authTokenMCP" = true <;>
    by_cases h5 : getVal cfg "voipnowTokenFile" = [] <;>
    by_cases h6 : secure = true <;>
    simp [validate_first_load, h1, h2, h3, h4, h5, h6, h7]

/-- Witness for C3 (amended) at a fully valid document. -/
theorem C3_witness :
    validate_first_load false goodCfg = true :=
  (C3_first_load_accepts_iff false goodCfg).mpr
    ⟨by decide, by decide, fun hs => by cases hs⟩

/-! ## Claim C4 -/

/-- C4: on a reload, when the fingerprint computed over
`{appId, appSecret, voipnowHost}` differs from the stored one, the
existing credential file is deleted (`os.remove` is invoked) and
exactly one reissue (`generate_token` call) is performed, regardless of
the old credential's expiry; when the fingerprint is unchanged and the
credential file exists and is fresh (`check_token` returns false), the
credential file is not deleted and survives unchanged. -/
theorem C4_fingerprint_change (auth stored : AuthConfig)
    (old content : List Char) (now : Int) (fresh : Credential)
    (hdiff : stored ≠ fingerprint auth)
    (hfresh : check_token now content = .ok false) :
    (load_config_token_phase auth now fresh ⟨some stored, some old⟩).configChanged = true ∧
    (load_config_token_phase auth now fresh ⟨some stored, some old⟩).removedTokenFile = true ∧
    (load_config_token_phase auth now fresh ⟨some stored, some old⟩).issueCount = 1 ∧
    (load_config_token_phase auth now fresh
      ⟨some (fingerprint auth), some content⟩).removedTokenFile = false ∧
    (load_config_token_phase auth now fresh
      ⟨some (fingerprint auth), some content⟩).fs.tokenFile = some content ∧
    (load_config_token_phase auth now fresh
      ⟨some (fingerprint auth), some content⟩).issueCount = 0 := by
  have hchange :
      check_config_change auth ⟨some stored, some old⟩ =
        ⟨⟨some (fingerprint auth), none⟩, true, true⟩ := by
    simp [check_config_change, hdiff]
  have hsame :
      check_config_change auth ⟨some (fingerprint auth), some content⟩ =
        ⟨⟨some (fingerprint auth), some content⟩, false, false⟩ := by
    simp [check_config_change]
  refine ⟨?_, ?_, ?_, ?_, ?_, ?_⟩ <;>
    simp [load_config_token_phase, hchange, hsame, hfresh]

/-- Witness for C4 at concrete auth configurations and a concrete
fresh credential. -/
theorem C4_witness :
    (load_config_token_phase ⟨"a".data, "s2".data, "h".data⟩ 0 ⟨0, 600, ['x']⟩
      ⟨some ⟨"a".data, "s1".data, "h".data⟩, some "0:600:x".data⟩).removedTokenFile = true ∧
    (load_config_token_phase ⟨"a".data, "s2".data, "h".data⟩ 0 ⟨0, 600, ['x']⟩
      ⟨some ⟨"a".data, "s1".data, "h".data⟩, some "0:600:x".data⟩).issueCount = 1 ∧
    (load_config_token_phase ⟨"a".data, "s2".data, "h".data⟩ 0 ⟨0, 600, ['x']⟩
      ⟨some ⟨"a".data, "s2".data, "h".data⟩,
        some (saveCredential ⟨0, 600, ['x']⟩)⟩).removedTokenFile = false := by
  have h := C4_fingerprint_change ⟨"a".data, "s2".data, "h".data⟩
    ⟨"a".data, "s1".data, "h".data⟩ "0:600:x".data
    (saveCredential ⟨0, 600, ['x']⟩) 0 ⟨0, 600, ['x']⟩
    (by decide) (by rfl)
  exact ⟨h.2.1, h.2.2.1, h.2.2.2.1⟩

/-! ## Claim C6 -/

/-- C6 is refuted by this counterexample: the claim describes the retry
as a bounded loop with a small retry budget — a retry that runs, gives
up within its budget, and lets the reload complete.  At a concrete
reload where the token phase fails with a token-mentioning error and
the handler's `generate_token` succeeds, no retry ever runs: the
nested `self.load_config()` at main.py:274 blocks forever on the
non-reentrant `threading.Lock` held by the outer call since
main.py:93, so the reload deadlocks instead of completing. -/
theorem C6_counterexample :
    load_config_reload false envTokenRetry = (.deadlocked, 1) := by
  decide

/-- C6 (amended): the token-error retry is neither a bounded loop nor
an unbounded recursion.  It is a single recursive re-invocation of
`load_config` (main.py:274) made while the outer call still holds the
non-reentrant `threading.Lock` (main.py:86, acquired at main.py:93):
for every environment at most one nested invocation is made (so there
is indeed no unbounded recursion or stack growth), and whenever that
nested invocation happens it blocks forever on the lock — the reload
deadlocks and the retry never completes. -/
theorem C6_retry_single_nested_invocation (secure : Bool) (e : AttemptEnv) :
    (load_config_reload secure e).2 ≤ 1 ∧
    ((load_config_reload secure e).2 = 1 →
      (load_config_reload secure e).1 = .deadlocked) := by
  rcases reload_count_spec secure e with h | h
  · rw [h]
    exact ⟨le_refl 1, fun _ => rfl⟩
  · refine ⟨by omega, fun hc => ?_⟩
    rw [h] at hc
    exact absurd hc (by decide)

end VoipNow
